import Mathlib

/-!
Verification of the banana-dao shitcoin-factory contracts.

Two CosmWasm contracts are embedded shallowly:
* `AssetList` — contracts/assetlist: a permissioned dual-index catalog of
  token metadata (primary key `denom`, secondary key `symbol`).
* `Factory` — contracts/factory: a capped-supply token ledger whose actual
  issuance is delegated to the host tokenfactory module.

Conventions of the embedding:
* `Addr`/`String` keys stay `String`; the host's `api.addr_validate` is an
  external collaborator and is passed in as a `validate : String → Bool`
  parameter.
* `Uint128`/`u128` values are `Nat`.  `Uint128` arithmetic (`cosmwasm_std`)
  panics on overflow, modelled by `Option`/a `Panic` error; primitive `u128`
  arithmetic (the factory's `total_to_mint` accumulation and `burned`
  subtraction) also panics on overflow under the standard overflow-checked
  cosmwasm build profile, modelled the same way.
* `cw_storage_plus::Map` is modelled as an association list kept sorted by
  key in byte-lexicographic order (UTF-8 byte order coincides with code-point
  order, which `charListLt` implements), so `range` over the map is the list
  itself.
* A handler returns `Except ContractError State`.  The host commits the
  storage writes of an invocation all-or-nothing: an error discards every
  write of the call.  `invoke` wraps a handler with that commit rule.
-/

deriving instance DecidableEq for Except

namespace AssetList

/-- Code-point (= UTF-8 byte) lexicographic order on lists of characters;
the order in which the host storage iterates map keys. -/
def charListLt : List Char → List Char → Bool
  | [], [] => false
  | [], _ :: _ => true
  | _ :: _, [] => false
  | a :: as, b :: bs =>
    if a < b then true
    else if b < a then false
    else charListLt as bs

/-- Byte-lexicographic order on strings. -/
def strLt (a b : String) : Bool :=
  charListLt a.data b.data

/-- state.rs: `Field` — required-metadata field tags. -/
inductive Field
  | Exp
  | Logo
  | Chain
deriving DecidableEq

/-- state.rs: `Metadata`. -/
structure Metadata where
  symbol : String
  exp : Option Nat
  logo : Option String
  chain : Option String
deriving DecidableEq

/-- state.rs: `Listing` — `author = none` means the listing was added by an
admin. -/
structure Listing where
  author : Option String
  metadata : Metadata
deriving DecidableEq

/-- cosmwasm_std `Coin`; the amount is a `Uint128` value. -/
structure Coin where
  denom : String
  amount : Nat
deriving DecidableEq

/-- state.rs: `Config`. -/
structure Config where
  add_permissioned : Option Bool
  remove_permissioned : Option Bool
  required_fields : Option (List Field)
  fee : Option (List Coin)
  admins : Option (List String)
  owner : Option String
deriving DecidableEq

/-- A `cw_storage_plus::Map` with string keys: an association list kept
sorted by `strLt` on keys (the storage iterates keys in that order). -/
abbrev StrMap (α : Type) := List (String × α)

/-- `Map::has`. -/
def mhas {α : Type} (m : StrMap α) (k : String) : Bool :=
  m.any (fun kv => kv.1 == k)

/-- `Map::load`/`may_load`. -/
def mget {α : Type} (m : StrMap α) (k : String) : Option α :=
  (m.find? (fun kv => kv.1 == k)).map (fun kv => kv.2)

/-- `Map::save`: insert or overwrite, keeping the keys sorted. -/
def msave {α : Type} : StrMap α → String → α → StrMap α
  | [], k, v => [(k, v)]
  | (k2, v2) :: t, k, v =>
    if k = k2 then (k, v) :: t
    else if strLt k k2 then (k, v) :: (k2, v2) :: t
    else (k2, v2) :: msave t k v

/-- `Map::remove`. -/
def mremove {α : Type} (m : StrMap α) (k : String) : StrMap α :=
  m.filter (fun kv => kv.1 != k)

/-- The whole persistent state of the assetlist contract:
`CONFIG`, `DENOM_MAP` (denom → listing) and `SYMBOL_MAP` (symbol → denom). -/
structure CatalogState where
  config : Config
  denom_map : StrMap Listing
  symbol_map : StrMap String
deriving DecidableEq

/-- error.rs: `ContractError`.  `Std` stands for any passthrough
`cosmwasm_std::StdError` (only address validation produces one here);
`Panic` stands for a Rust panic aborting the VM (`Uint128` arithmetic
overflow, `unwrap` on `None`), which the host also surfaces as a failed
invocation. -/
inductive ContractError
  | Std
  | NotOwner
  | AddPermissioned
  | RemovePermissioned
  | Unauthorized
  | MissingFee
  | MultipleFees
  | InvalidFee
  | InsufficientFee
  | DuplicateListing (key : String)
  | ListingNotFound (key : String)
  | MissingField (f : Field)
  | Panic
deriving DecidableEq

/-- msg.rs: `ListingMsg`. -/
inductive ListingMsg
  | Add (listings : List (String × Metadata))
  | Update (updates : List (String × Metadata))
  | Remove (denoms : List String)

/-- msg.rs: `ExecuteMsg`. -/
inductive ExecuteMsg
  | Listing (msg : ListingMsg)
  | UpdateConfig (new_config : Config)

/-- contract.rs: `check_required_fields`. -/
def check_required_fields : List Field → Metadata → Except ContractError Unit
  | [], _ => .ok ()
  | f :: rest, metadata =>
    match f with
    | .Exp =>
      if metadata.exp.isNone then .error (.MissingField .Exp)
      else check_required_fields rest metadata
    | .Logo =>
      if metadata.logo.isNone then .error (.MissingField .Logo)
      else check_required_fields rest metadata
    | .Chain =>
      if metadata.chain.isNone then .error (.MissingField .Chain)
      else check_required_fields rest metadata

/-- `Uint128` multiplication: `cosmwasm_std` panics when the product does
not fit in 128 bits. -/
def uint128Mul (a b : Nat) : Option Nat :=
  if a * b < 2 ^ 128 then some (a * b) else none

/-- contract.rs `execute_add_listings`, the per-item validation loop
(lines 142-170): duplicate checks against both indexes, required fields,
then save into both maps, with `author = none` for admin-created records. -/
def add_listings_loop (sender : String) (admin : Bool) (required_fields : List Field) :
    CatalogState → List (String × Metadata) → Except ContractError CatalogState
  | st, [] => .ok st
  | st, (denom, metadata) :: rest =>
    if mhas st.denom_map denom then .error (.DuplicateListing denom)
    else if mhas st.symbol_map metadata.symbol then .error (.DuplicateListing metadata.symbol)
    else
      match check_required_fields required_fields metadata with
      | .error e => .error e
      | .ok _ =>
        add_listings_loop sender admin required_fields
          { st with
            denom_map := msave st.denom_map denom
              { author := if admin then none else some sender, metadata := metadata }
            symbol_map := msave st.symbol_map metadata.symbol denom }
          rest

/-- contract.rs: `execute_add_listings` (lines 103-173): permission gate,
fee admission gate for non-admins (in order: MissingFee, MultipleFees,
InvalidFee, InsufficientFee — exact payment passes), then the item loop. -/
def execute_add_listings (st : CatalogState) (sender : String) (funds : List Coin)
    (fee : Option (List Coin)) (admin : Bool) (permissioned : Bool)
    (required_fields : List Field) (new_listings : List (String × Metadata)) :
    Except ContractError CatalogState :=
  if permissioned && !admin then .error .AddPermissioned
  else if !admin && fee.isSome then
    match funds with
    | [] => .error .MissingFee
    | c :: rest =>
      if rest.length > 0 then .error .MultipleFees
      else
        match (fee.getD []).find? (fun coin => coin.denom == c.denom) with
        | some fee_token =>
          match uint128Mul fee_token.amount new_listings.length with
          | none => .error .Panic
          | some total_fee =>
            if total_fee > c.amount then .error .InsufficientFee
            else add_listings_loop sender admin required_fields st new_listings
        | none => .error .InvalidFee
  else add_listings_loop sender admin required_fields st new_listings

/-- contract.rs `execute_update_listings`, the per-item loop (lines 189-226):
the listing must exist, the caller must be its author or an admin, a changed
symbol must not collide, required fields re-checked, then both maps are
written.  Note: the loop saves the new symbol key but never removes the old
one when the symbol changes. -/
def update_listings_loop (sender : String) (admin : Bool) (required_fields : List Field) :
    CatalogState → List (String × Metadata) → Except ContractError CatalogState
  | st, [] => .ok st
  | st, (denom, metadata) :: rest =>
    match mget st.denom_map denom with
    | none => .error (.ListingNotFound denom)
    | some current_listing =>
      if (current_listing.author.getD "" != sender) && !admin then .error .Unauthorized
      else if (current_listing.metadata.symbol != metadata.symbol)
          && mhas st.symbol_map metadata.symbol then
        .error (.DuplicateListing metadata.symbol)
      else
        match check_required_fields required_fields metadata with
        | .error e => .error e
        | .ok _ =>
          update_listings_loop sender admin required_fields
            { st with
              denom_map := msave st.denom_map denom
                { author := if admin then none else some sender, metadata := metadata }
              symbol_map := msave st.symbol_map metadata.symbol denom }
            rest

/-- contract.rs: `execute_update_listings` (lines 175-229).  The permission
gate reuses the `add_permissioned` flag but reports `RemovePermissioned`. -/
def execute_update_listings (st : CatalogState) (sender : String) (admin : Bool)
    (permissioned : Bool) (required_fields : List Field)
    (updated_listings : List (String × Metadata)) : Except ContractError CatalogState :=
  if permissioned && !admin then .error .RemovePermissioned
  else update_listings_loop sender admin required_fields st updated_listings

/-- contract.rs `execute_remove_listings`, the per-item loop (lines 242-255). -/
def remove_listings_loop (sender : String) (admin : Bool) :
    CatalogState → List String → Except ContractError CatalogState
  | st, [] => .ok st
  | st, denom :: rest =>
    match mget st.denom_map denom with
    | none => .error (.ListingNotFound denom)
    | some listing =>
      if (listing.author.getD "" != sender) && !admin then .error .Unauthorized
      else
        remove_listings_loop sender admin
          { st with
            denom_map := mremove st.denom_map denom
            symbol_map := mremove st.symbol_map listing.metadata.symbol }
          rest

/-- contract.rs: `execute_remove_listings` (lines 231-258). -/
def execute_remove_listings (st : CatalogState) (sender : String) (admin : Bool)
    (permissioned : Bool) (denoms : List String) : Except ContractError CatalogState :=
  if permissioned && !admin then .error .RemovePermissioned
  else remove_listings_loop sender admin st denoms

/-- contract.rs: `execute_update_config` (lines 260-314).  Owner-only; the
supplied owner replaces the old one; a supplied admins list replaces the old
list and gets the (new) owner appended; omitted fields keep their old value
via `take().or(old)`. -/
def execute_update_config (validate : String → Bool) (st : CatalogState)
    (sender : String) (new_config : Config) : Except ContractError CatalogState :=
  match st.config.owner with
  | none => .error .Panic
  | some old_owner =>
    if sender ≠ old_owner then .error .NotOwner
    else
      let owner_step : Except ContractError String :=
        match new_config.owner with
        | some owner => if validate owner then .ok owner else .error .Std
        | none => .ok old_owner
      match owner_step with
      | .error e => .error e
      | .ok owner2 =>
        let admins_step : Except ContractError (Option (List String)) :=
          match new_config.admins with
          | some admins =>
            if admins.all validate then .ok (some (admins ++ [owner2]))
            else .error .Std
          | none => .ok st.config.admins
        match admins_step with
        | .error e => .error e
        | .ok admins2 =>
          .ok { st with config :=
            { owner := some owner2
              admins := admins2
              add_permissioned := new_config.add_permissioned.or st.config.add_permissioned
              remove_permissioned := new_config.remove_permissioned.or st.config.remove_permissioned
              required_fields := new_config.required_fields.or st.config.required_fields
              fee := new_config.fee.or st.config.fee } }

/-- contract.rs: `instantiate` (lines 24-52): validates the supplied admins,
appends the sender to the admins list, and defaults the owner to the sender. -/
def instantiate (validate : String → Bool) (sender : String) (msg : Config) :
    Except ContractError CatalogState :=
  let admins := msg.admins.getD []
  if admins.all validate then
    .ok { config :=
            { msg with
              admins := some (admins ++ [sender])
              owner := some (msg.owner.getD sender) }
          denom_map := []
          symbol_map := [] }
  else .error .Std

/-- contract.rs: `execute` (lines 55-100).  The admin flag is membership of
the sender in the stored admins list. -/
def execute (validate : String → Bool) (st : CatalogState) (sender : String)
    (funds : List Coin) (msg : ExecuteMsg) : Except ContractError CatalogState :=
  let config := st.config
  let admin := (config.admins.getD []).contains sender
  match msg with
  | .Listing (.Add listings) =>
    execute_add_listings st sender funds config.fee admin
      (config.add_permissioned.getD false) (config.required_fields.getD []) listings
  | .Listing (.Update updates) =>
    execute_update_listings st sender admin
      (config.add_permissioned.getD false) (config.required_fields.getD []) updates
  | .Listing (.Remove denoms) =>
    execute_remove_listings st sender admin (config.remove_permissioned.getD false) denoms
  | .UpdateConfig new_config => execute_update_config validate st sender new_config

/-- One invocation as committed by the host: on success the handler's state
is stored; on any error the host discards every write of the call, so the
state is the pre-call state (spec section 1: all-or-nothing commit). -/
def invoke (validate : String → Bool) (st : CatalogState) (sender : String)
    (funds : List Coin) (msg : ExecuteMsg) : CatalogState × Option ContractError :=
  match execute validate st sender funds msg with
  | .ok st2 => (st2, none)
  | .error e => (st, some e)

/-- contract.rs: `MAX_PAGE_LIMIT`. -/
def MAX_PAGE_LIMIT : Nat := 250

/-- contract.rs: `query_all_listings` (lines 371-387): clamp the limit to
`MAX_PAGE_LIMIT` (defaulting to it), iterate the denom map ascending from
the exclusive `start_after` bound, take `limit` items, return pairs of denom
and metadata. -/
def query_all_listings (st : CatalogState) (start_after : Option String)
    (limit : Option Nat) : List (String × Metadata) :=
  let lim := min (limit.getD MAX_PAGE_LIMIT) MAX_PAGE_LIMIT
  let ranged :=
    match start_after with
    | none => st.denom_map
    | some k => st.denom_map.filter (fun kv => strLt k kv.1)
  (ranged.take lim).map (fun kv => (kv.1, kv.2.metadata))

/-- Mutual consistency of the two indexes (spec section 3 invariant): every
stored denom's symbol resolves back to that denom, and every symbol entry
points at a denom whose current metadata carries that symbol. -/
def indexConsistent (st : CatalogState) : Prop :=
  (∀ denom listing, mget st.denom_map denom = some listing →
    mget st.symbol_map listing.metadata.symbol = some denom) ∧
  (∀ symbol denom, mget st.symbol_map symbol = some denom →
    ∃ listing, mget st.denom_map denom = some listing ∧ listing.metadata.symbol = symbol)

/-- Keys of a map are strictly ascending in byte order. -/
abbrev sortedKeys {α : Type} (m : StrMap α) : Prop :=
  m.Pairwise (fun a b => strLt a.1 b.1 = true)

end AssetList

namespace Factory

/-- First value past the `u128` range: an addition reaching it panics under
the overflow-checked cosmwasm build profile. -/
def U128 : Nat := 2 ^ 128

/-- msg.rs: `Receiver`. -/
structure Receiver where
  address : String
  amount : Nat
deriving DecidableEq

/-- msg.rs: `InstantiateMsg`. -/
structure InstantiateMsg where
  symbol : String
  initial_supply : Option Nat
  max_supply : Option Nat
  admin : Option String
deriving DecidableEq

/-- msg.rs: `ExecuteMsg`. -/
inductive ExecuteMsg
  | Mint (receivers : List Receiver)
  | Send (receivers : List Receiver)
  | Burn (amount : Nat)
  | UpdateSupply (new_max : Nat)
  | Revoke

/-- error.rs: `ContractError`; `Std` stands for a passthrough
`cosmwasm_std::StdError` (address validation); `Panic` stands for a Rust
panic aborting the VM (`u128` addition overflowing under the standard
overflow-checked cosmwasm build profile), which the host also surfaces as a
failed invocation. -/
inductive ContractError
  | Std
  | Unauthorized
  | CurrentSupply
  | SupplyCap
  | TransferInvalid (i : Nat)
  | MintInvalid (i : Nat)
  | Panic
deriving DecidableEq

/-- state.rs: the factory's persistent items `ADMIN`, `DENOM`, `SYMBOL`,
`MAX_SUPPLY`, `TOTAL_MINTED` (the two supplies are stored as `u128`). -/
structure LedgerState where
  admin : String
  denom : String
  symbol : String
  max_supply : Nat
  total_minted : Nat
deriving DecidableEq

/-- An emitted tokenfactory `MsgMint` issuance instruction. -/
structure MintMsg where
  denom : String
  amount : Nat
  mint_to_address : String
deriving DecidableEq

/-- contract.rs: `instantiate` (lines 20-85), the state part: admin defaults
to the sender and is validated; supplies default to 0; `initial_supply`
above a nonzero `max_supply` is rejected with `SupplyCap`; the denom is
derived from the contract address and the symbol; `TOTAL_MINTED` starts at
`initial_supply` (the corresponding issuance instruction is emitted to the
host and not part of the stored state). -/
def instantiate (validate : String → Bool) (sender : String)
    (contract_address : String) (msg : InstantiateMsg) :
    Except ContractError LedgerState :=
  let admin := msg.admin.getD sender
  if !(validate admin) then .error .Std
  else
    let initial_supply := msg.initial_supply.getD 0
    let max_supply := msg.max_supply.getD 0
    if initial_supply > max_supply ∧ max_supply ≠ 0 then .error .SupplyCap
    else
      .ok { admin := admin
            denom := "factory/" ++ contract_address ++ "/tfa/" ++ msg.symbol
            symbol := msg.symbol
            max_supply := max_supply
            total_minted := initial_supply }

/-- contract.rs `execute_mint`, the receiver loop (lines 122-147): a zero
amount or invalid address at position `i` aborts with `MintInvalid i`;
otherwise the plain-`u128` accumulator `total_to_mint` is advanced — a
checked addition that panics past the `u128` range under the standard
overflow-checked cosmwasm build profile, modelled by `Panic` — and one
`MsgMint` per receiver is collected. -/
def mint_loop (validate : String → Bool) (denom : String) :
    Nat → Nat → List Receiver → Except ContractError (Nat × List MintMsg)
  | _, total_to_mint, [] => .ok (total_to_mint, [])
  | i, total_to_mint, receiver :: rest =>
    if receiver.amount = 0 ∨ validate receiver.address = false then
      .error (.MintInvalid i)
    else if total_to_mint + receiver.amount ≥ U128 then .error .Panic
    else
      match mint_loop validate denom (i + 1) (total_to_mint + receiver.amount) rest with
      | .error e => .error e
      | .ok (total, msgs) =>
        .ok (total, { denom := denom
                      amount := receiver.amount
                      mint_to_address := receiver.address } :: msgs)

/-- contract.rs: `execute_mint` (lines 109-162): run the receiver loop, then
reject with `SupplyCap` when the accumulated batch total plus
`TOTAL_MINTED` exceeds a nonzero `MAX_SUPPLY`, else store the new
`TOTAL_MINTED` and return the issuance instructions.  The
`total_to_mint + total_minted` addition (computed for the check on line 150
and again for the store on line 155) is plain `u128` and panics past the
`u128` range under the overflow-checked profile. -/
def execute_mint (validate : String → Bool) (st : LedgerState)
    (receivers : List Receiver) : Except ContractError (LedgerState × List MintMsg) :=
  match mint_loop validate st.denom 0 0 receivers with
  | .error e => .error e
  | .ok (total_to_mint, msgs) =>
    if total_to_mint + st.total_minted ≥ U128 then .error .Panic
    else if st.max_supply < total_to_mint + st.total_minted ∧ st.max_supply ≠ 0 then
      .error .SupplyCap
    else
      .ok ({ st with total_minted := total_to_mint + st.total_minted }, msgs)

/-- contract.rs `execute_transfer`, the receiver loop (lines 193-216): only
the per-item validity checks touch anything observable here (the bank sends
are emitted instructions, not state). -/
def transfer_loop (validate : String → Bool) :
    Nat → List Receiver → Except ContractError Unit
  | _, [] => .ok ()
  | i, receiver :: rest =>
    if receiver.amount = 0 ∨ validate receiver.address = false then
      .error (.TransferInvalid i)
    else transfer_loop validate (i + 1) rest

/-- contract.rs: `execute_update_supply` (lines 242-252): a nonzero new
maximum below `TOTAL_MINTED` is rejected with `CurrentSupply`; otherwise it
replaces `MAX_SUPPLY` (0 removes the cap). -/
def execute_update_supply (st : LedgerState) (new_max : Nat) :
    Except ContractError LedgerState :=
  if new_max < st.total_minted ∧ new_max ≠ 0 then .error .CurrentSupply
  else .ok { st with max_supply := new_max }

/-- contract.rs: `execute` (lines 88-107): admin-only dispatch.  `Burn` and
`Revoke` only emit instructions and leave the stored state unchanged. -/
def execute (validate : String → Bool) (st : LedgerState) (sender : String)
    (msg : ExecuteMsg) : Except ContractError LedgerState :=
  if sender ≠ st.admin then .error .Unauthorized
  else
    match msg with
    | .Mint receivers =>
      match execute_mint validate st receivers with
      | .error e => .error e
      | .ok (st2, _) => .ok st2
    | .Send receivers =>
      match transfer_loop validate 0 receivers with
      | .error e => .error e
      | .ok _ => .ok st
    | .Burn _ => .ok st
    | .UpdateSupply new_max => execute_update_supply st new_max
    | .Revoke => .ok st

/-- One invocation as committed by the host: all-or-nothing, an error leaves
the pre-call ledger state. -/
def invoke (validate : String → Bool) (st : LedgerState) (sender : String)
    (msg : ExecuteMsg) : LedgerState × Option ContractError :=
  match execute validate st sender msg with
  | .ok st2 => (st2, none)
  | .error e => (st, some e)

/-- Ledger states reachable from instantiation through successful execute
calls. -/
inductive Reachable (validate : String → Bool) : LedgerState → Prop
  | instantiated (sender contract_address : String) (msg : InstantiateMsg)
      (st : LedgerState) :
      instantiate validate sender contract_address msg = .ok st →
      Reachable validate st
  | stepped (st : LedgerState) (sender : String) (msg : ExecuteMsg)
      (st2 : LedgerState) :
      Reachable validate st →
      execute validate st sender msg = .ok st2 →
      Reachable validate st2

/-- msg.rs: `TokenInfoResponse`. -/
structure TokenInfoResponse where
  symbol : String
  denom : String
  current_supply : Nat
  max_supply : Nat
  minted : Nat
  burned : Nat
deriving DecidableEq

/-- `u128` subtraction under the standard cosmwasm build profile
(overflow checks on): underflow panics, aborting the query; modelled as
`none`. -/
def u128Sub (a b : Nat) : Option Nat :=
  if b ≤ a then some (a - b) else none

/-- contract.rs: `query_info` (lines 262-279).  `current_supply` is the
host-reported bank supply for the denom (`query_bank_supply`, an external
collaborator, so a parameter here); `burned = minted - current_supply` uses
unchecked-in-the-source `u128` subtraction that aborts on underflow. -/
def query_info (st : LedgerState) (current_supply : Nat) :
    Option TokenInfoResponse :=
  match u128Sub st.total_minted current_supply with
  | none => none
  | some burned =>
    some { symbol := st.symbol
           denom := st.denom
           current_supply := current_supply
           max_supply := st.max_supply
           minted := st.total_minted
           burned := burned }

/-- The sum of the amounts of a mint batch (exact, unwrapped). -/
def sumAmounts (receivers : List Receiver) : Nat :=
  (receivers.map (fun r => r.amount)).sum

/-- A receiver the mint/transfer loops reject: zero amount or invalid
address. -/
def invalidReceiver (validate : String → Bool) (r : Receiver) : Bool :=
  r.amount == 0 || !(validate r.address)

/-- The position of the first invalid receiver of a batch, if any. -/
def firstInvalidIdx (validate : String → Bool) : List Receiver → Option Nat
  | [] => none
  | r :: rest =>
    if invalidReceiver validate r then some 0
    else (firstInvalidIdx validate rest).map (fun j => j + 1)

end Factory

namespace AssetList

/-- An address validator that accepts everything; stands for the host
`addr_validate` on the well-formed addresses used in the concrete runs. -/
def acceptAll : String → Bool := fun _ => true

/-- Metadata fixture carrying symbol "AA". -/
def metaAA : Metadata := { symbol := "AA", exp := none, logo := none, chain := none }

/-- Metadata fixture carrying symbol "BB". -/
def metaBB : Metadata := { symbol := "BB", exp := none, logo := none, chain := none }

/-- A catalog holding one listing: denom "ud" with symbol "AA", created by
an admin.  Reached by instantiating with all-default config as "alice" and
adding the listing as "alice". -/
def oneListingState : CatalogState :=
  { config := { add_permissioned := none, remove_permissioned := none,
                required_fields := none, fee := none,
                admins := some ["alice"], owner := some "alice" }
    denom_map := [("ud", { author := none, metadata := metaAA })]
    symbol_map := [("AA", "ud")] }

/-- The instantiate payload of a deployer who names someone else as owner:
"bob" instantiates, "alice" is the configured owner, adds are
admin-restricted. -/
def ownerElsewhereMsg : Config :=
  { add_permissioned := some true, remove_permissioned := none,
    required_fields := none, fee := none,
    admins := none, owner := some "alice" }

/-- The state produced by `instantiate acceptAll "bob" ownerElsewhereMsg`:
the admins list holds only the sender "bob"; the owner "alice" is not in
it. -/
def ownerElsewhereState : CatalogState :=
  { config := { add_permissioned := some true, remove_permissioned := none,
                required_fields := none, fee := none,
                admins := some ["bob"], owner := some "alice" }
    denom_map := []
    symbol_map := [] }

/-- A configured catalog used for the config-update run: owner "alice" (who
is also the only admin), adds restricted, one required field, a fee
schedule. -/
def configuredState : CatalogState :=
  { config := { add_permissioned := some true, remove_permissioned := some false,
                required_fields := some [.Exp], fee := some [{ denom := "uosmo", amount := 5 }],
                admins := some ["alice"], owner := some "alice" }
    denom_map := []
    symbol_map := [] }

/-- The config-update payload naming a new owner and nothing else. -/
def newOwnerOnlyMsg : Config :=
  { add_permissioned := none, remove_permissioned := none,
    required_fields := none, fee := none,
    admins := none, owner := some "carol" }

/-- A two-record catalog in ascending denom order, for the pagination run:
"uion" (symbol "AA") then "uosmo" (symbol "BB"). -/
def pagedState : CatalogState :=
  { config := { add_permissioned := none, remove_permissioned := none,
                required_fields := none, fee := none,
                admins := some ["alice"], owner := some "alice" }
    denom_map := [("uion", { author := none, metadata := metaAA }),
                  ("uosmo", { author := none, metadata := metaBB })]
    symbol_map := [("AA", "uion"), ("BB", "uosmo")] }

end AssetList

theorem AssetList.charListLt_irrefl (l : List Char) :
    AssetList.charListLt l l = false := by
  induction l with
  | nil => rfl
  | cons a as ih =>
    simp only [AssetList.charListLt, lt_irrefl a, if_false, ih]

theorem AssetList.charListLt_asymm {a b : List Char} :
    AssetList.charListLt a b = true → AssetList.charListLt b a = false := by
  induction a generalizing b with
  | nil =>
    intro h
    cases b with
    | nil => simp [AssetList.charListLt] at h
    | cons c cs => rfl
  | cons x xs ih =>
    intro h
    cases b with
    | nil => cases h
    | cons y ys =>
      simp only [AssetList.charListLt] at h ⊢
      by_cases hxy : x < y
      · have hyx : ¬ y < x := lt_asymm hxy
        simp [hxy, hyx]
      · by_cases hyx : y < x
        · simp [hxy, hyx] at h
        · simp only [hxy, hyx, if_false] at h ⊢
          exact ih h

theorem AssetList.strLt_irrefl (s : String) : AssetList.strLt s s = false :=
  AssetList.charListLt_irrefl s.data

theorem AssetList.strLt_asymm {a b : String} (h : AssetList.strLt a b = true) :
    AssetList.strLt b a = false :=
  AssetList.charListLt_asymm h

/-- Claim C1 (refuted; code bug): updating listing "ud" so that its symbol
changes from "AA" to "BB" succeeds, yet leaves the stale secondary-index
entry "AA" → "ud" in place while the stored metadata of "ud" now carries
"BB" — the Update loop saves the new symbol key but never removes the old
one — so the indexes are not mutually consistent after a successful Update,
contrary to the declared invariant. -/
theorem AssetList.update_symbol_change_breaks_index :
    (invoke acceptAll oneListingState "alice" []
        (.Listing (.Update [("ud", metaBB)]))).2 = none ∧
    mget (invoke acceptAll oneListingState "alice" []
        (.Listing (.Update [("ud", metaBB)]))).1.symbol_map "AA" = some "ud" ∧
    (mget (invoke acceptAll oneListingState "alice" []
        (.Listing (.Update [("ud", metaBB)]))).1.denom_map "ud").map
        (fun l => l.metadata.symbol) = some "BB" ∧
    ¬ indexConsistent (invoke acceptAll oneListingState "alice" []
        (.Listing (.Update [("ud", metaBB)]))).1 := by
  refine ⟨by decide, by decide, by decide, fun h => ?_⟩
  obtain ⟨l, hget, hsym⟩ := h.2 "AA" "ud" (by decide)
  rw [show mget (invoke acceptAll oneListingState "alice" []
        (.Listing (.Update [("ud", metaBB)]))).1.denom_map "ud"
      = some { author := none, metadata := metaBB } from by decide] at hget
  cases hget
  exact absurd hsym (by decide)

/-- Claim C3 (refuted; code bug): after "bob" instantiates the catalog
naming "alice" as owner, the owner is absent from the stored admins list and
execute treats her as a non-admin — her Add call fails the admin-only gate
with AddPermissioned while the listed admin "bob" passes it.  The admin flag
of execute is membership in the stored admins list only; the owner gets no
implicit admin treatment. -/
theorem AssetList.owner_outside_admins_fails_admin_checks :
    instantiate acceptAll "bob" ownerElsewhereMsg = .ok ownerElsewhereState ∧
    ownerElsewhereState.config.owner = some "alice" ∧
    ¬ ("alice" ∈ ownerElsewhereState.config.admins.getD []) ∧
    execute acceptAll ownerElsewhereState "alice" []
      (.Listing (.Add [("ud", metaAA)])) = .error .AddPermissioned ∧
    execute acceptAll ownerElsewhereState "bob" []
      (.Listing (.Add [("ud", metaAA)])) =
      .ok { ownerElsewhereState with
            denom_map := [("ud", { author := none, metadata := metaAA })]
            symbol_map := [("AA", "ud")] } := by
  decide

/-- Claim C4 (refuted; code bug): an UpdateConfig payload that supplies only
a new owner ("carol") replaces the owner but does not add her to the admin
set — the owner is appended to the admins only when an admins list is also
supplied — while every omitted field (admins, permission flags, required
fields, fee) keeps its previous value. -/
theorem AssetList.update_config_new_owner_not_added_to_admins :
    execute acceptAll configuredState "alice" [] (.UpdateConfig newOwnerOnlyMsg) =
      .ok { config := { add_permissioned := some true, remove_permissioned := some false,
                        required_fields := some [.Exp],
                        fee := some [{ denom := "uosmo", amount := 5 }],
                        admins := some ["alice"], owner := some "carol" }
            denom_map := []
            symbol_map := [] } ∧
    ¬ ("carol" ∈ (["alice"] : List String)) := by
  decide

/-- Claim C5: batches are atomic at invocation granularity: whenever the
handler of an execute message fails, the committed invocation returns the
catalog exactly as it was before the call together with that error — no
earlier item of the batch stays committed — and a successful handler commits
its final state. -/
theorem AssetList.batch_atomicity (validate : String → Bool) (st : CatalogState)
    (sender : String) (funds : List Coin) (msg : ExecuteMsg) :
    (∀ e, execute validate st sender funds msg = .error e →
      invoke validate st sender funds msg = (st, some e)) ∧
    (∀ st2, execute validate st sender funds msg = .ok st2 →
      invoke validate st sender funds msg = (st2, none)) := by
  constructor
  · intro e he
    simp [invoke, he]
  · intro st2 hs
    simp [invoke, hs]

/-- Witness for C5: an Add batch whose first item is valid and whose second
item repeats the denom "ud" fails with DuplicateListing and commits
nothing — the first item is rolled back with the rest of the call. -/
theorem AssetList.batch_atomicity_witness :
    invoke acceptAll ownerElsewhereState "bob" []
      (.Listing (.Add [("ud", metaAA), ("ud", metaBB)])) =
      (ownerElsewhereState, some (.DuplicateListing "ud")) :=
  (AssetList.batch_atomicity acceptAll ownerElsewhereState "bob" [] _).1
    (.DuplicateListing "ud") (by decide)

/-- Claim C9: TokenInfo computes burned as total_minted minus the
host-reported circulating supply by u128 subtraction: the query returns a
result iff circulating ≤ total_minted, and then burned is the exact
difference; a strictly larger circulating supply underflows and the query
aborts with no result. -/
theorem Factory.token_info_burned_totality (st : LedgerState) (current_supply : Nat) :
    ((query_info st current_supply).isSome ↔ current_supply ≤ st.total_minted) ∧
    (∀ r, query_info st current_supply = some r →
      r.burned = st.total_minted - current_supply ∧
      r.minted = st.total_minted ∧ r.current_supply = current_supply) := by
  constructor
  · unfold query_info u128Sub
    by_cases h : current_supply ≤ st.total_minted <;> simp [h]
  · intro r hr
    unfold query_info u128Sub at hr
    by_cases h : current_supply ≤ st.total_minted
    · simp only [if_pos h] at hr
      cases hr
      exact ⟨rfl, rfl, rfl⟩
    · simp [h] at hr

/-- Witness for C9: a ledger with 10 minted and a circulating supply of 4
reports burned = 6. -/
theorem Factory.token_info_burned_totality_witness :
    Factory.query_info { admin := "adm", denom := "d", symbol := "S",
                         max_supply := 0, total_minted := 10 } 4 =
      some { symbol := "S", denom := "d", current_supply := 4,
             max_supply := 0, minted := 10, burned := 6 } ∧
    ((6 : Nat) = 10 - 4 ∧ (10 : Nat) = 10 ∧ (4 : Nat) = 4) :=
  ⟨by decide,
   (Factory.token_info_burned_totality
      { admin := "adm", denom := "d", symbol := "S",
        max_supply := 0, total_minted := 10 } 4).2
      { symbol := "S", denom := "d", current_supply := 4,
        max_supply := 0, minted := 10, burned := 6 } (by decide)⟩

/-- Claim C10: catalog instantiation always appends the instantiating sender
to the stored admins list, whatever owner and admins are supplied, so the
sender is a member of the resulting admin set. -/
theorem AssetList.instantiate_appends_sender_to_admins
    (validate : String → Bool) (sender : String) (msg : Config) (st : CatalogState)
    (h : instantiate validate sender msg = .ok st) :
    st.config.admins = some (msg.admins.getD [] ++ [sender]) ∧
    sender ∈ st.config.admins.getD [] ∧
    st.config.owner = some (msg.owner.getD sender) := by
  simp only [instantiate] at h
  split at h
  · cases h
    refine ⟨rfl, ?_, rfl⟩
    simp
  · simp at h

/-- Witness for C10: "bob" instantiates naming "alice" as owner and
supplying no admins; the stored admins list is exactly ["bob"]. -/
theorem AssetList.instantiate_appends_sender_to_admins_witness :
    AssetList.ownerElsewhereState.config.admins =
      some (AssetList.ownerElsewhereMsg.admins.getD [] ++ ["bob"]) ∧
    "bob" ∈ AssetList.ownerElsewhereState.config.admins.getD [] ∧
    AssetList.ownerElsewhereState.config.owner =
      some (AssetList.ownerElsewhereMsg.owner.getD "bob") :=
  AssetList.instantiate_appends_sender_to_admins
    AssetList.acceptAll "bob" AssetList.ownerElsewhereMsg
    AssetList.ownerElsewhereState (by decide)

theorem Factory.sumAmounts_cons (r : Factory.Receiver) (rest : List Factory.Receiver) :
    Factory.sumAmounts (r :: rest) = r.amount + Factory.sumAmounts rest := by
  simp [Factory.sumAmounts]

theorem Factory.mint_loop_all_valid (validate : String → Bool) (denom : String)
    (receivers : List Factory.Receiver)
    (h : ∀ r ∈ receivers, r.amount ≠ 0 ∧ validate r.address = true) :
    ∀ i acc, acc + Factory.sumAmounts receivers < Factory.U128 →
      Factory.mint_loop validate denom i acc receivers =
        .ok (acc + Factory.sumAmounts receivers,
             receivers.map (fun r =>
               { denom := denom, amount := r.amount, mint_to_address := r.address })) := by
  induction receivers with
  | nil =>
    intro i acc hacc
    simp [Factory.mint_loop, Factory.sumAmounts]
  | cons r rest ih =>
    intro i acc hacc
    have hr := h r (by simp)
    have hrest : ∀ x ∈ rest, x.amount ≠ 0 ∧ validate x.address = true :=
      fun x hx => h x (by simp [hx])
    have hcond : ¬ (r.amount = 0 ∨ validate r.address = false) := by
      rintro (h0 | hf)
      · exact hr.1 h0
      · rw [hr.2] at hf
        cases hf
    rw [Factory.sumAmounts_cons] at hacc
    have hnoovf : ¬ (acc + r.amount ≥ Factory.U128) := by omega
    have hrec := ih hrest (i + 1) (acc + r.amount) (by omega)
    simp only [Factory.mint_loop, if_neg hcond, if_neg hnoovf, hrec, List.map_cons]
    rw [Factory.sumAmounts_cons, ← Nat.add_assoc]

theorem Factory.mint_loop_first_invalid (validate : String → Bool) (denom : String)
    (receivers : List Factory.Receiver) :
    ∀ i j acc, Factory.firstInvalidIdx validate receivers = some j →
      acc + Factory.sumAmounts (receivers.take j) < Factory.U128 →
      Factory.mint_loop validate denom i acc receivers = .error (.MintInvalid (i + j)) := by
  induction receivers with
  | nil => intro i j acc h _; cases h
  | cons r rest ih =>
    intro i j acc h hpre
    simp only [Factory.firstInvalidIdx] at h
    by_cases hinv : Factory.invalidReceiver validate r = true
    · rw [if_pos hinv] at h
      cases h
      have hcond : r.amount = 0 ∨ validate r.address = false := by
        simp only [Factory.invalidReceiver, Bool.or_eq_true, beq_iff_eq,
          Bool.not_eq_eq_eq_not, Bool.not_true] at hinv
        exact hinv
      simp [Factory.mint_loop, hcond]
    · rw [if_neg hinv] at h
      have hcond : ¬ (r.amount = 0 ∨ validate r.address = false) := by
        rintro (h0 | hf)
        · exact hinv (by simp [Factory.invalidReceiver, h0])
        · exact hinv (by simp [Factory.invalidReceiver, hf])
      match hrest : Factory.firstInvalidIdx validate rest with
      | none => rw [hrest] at h; cases h
      | some j2 =>
        rw [hrest] at h
        cases h
        rw [List.take_succ_cons, Factory.sumAmounts_cons] at hpre
        have hnoovf : ¬ (acc + r.amount ≥ Factory.U128) := by omega
        have hrec := ih (i + 1) j2 (acc + r.amount) hrest (by omega)
        simp only [Factory.mint_loop, if_neg hcond, if_neg hnoovf, hrec]
        have : i + 1 + j2 = i + (j2 + 1) := by omega
        rw [this]

/-- Claim C7: a Mint batch by the ledger admin fails with MintInvalid at the
first position holding a zero amount or an invalid address, committing
nothing — guarded by the amounts before that position staying within the
`u128` range, since the checked accumulator would otherwise panic first;
when every receiver is valid and the cap check passes, the call adds
exactly the batch sum to total_minted and returns one issuance instruction
per recipient carrying that recipient's amount. -/
theorem Factory.mint_first_invalid_or_exact_batch :
    (∀ (validate : String → Bool) (st : Factory.LedgerState) (sender : String)
        (receivers : List Factory.Receiver) (i : Nat),
      sender = st.admin →
      Factory.firstInvalidIdx validate receivers = some i →
      Factory.sumAmounts (receivers.take i) < Factory.U128 →
      Factory.invoke validate st sender (.Mint receivers) =
        (st, some (.MintInvalid i))) ∧
    (∀ (validate : String → Bool) (st : Factory.LedgerState)
        (receivers : List Factory.Receiver),
      (∀ r ∈ receivers, r.amount ≠ 0 ∧ validate r.address = true) →
      Factory.sumAmounts receivers + st.total_minted < Factory.U128 →
      (st.max_supply = 0 ∨
        Factory.sumAmounts receivers + st.total_minted ≤ st.max_supply) →
      Factory.execute_mint validate st receivers =
        .ok ({ st with total_minted := st.total_minted + Factory.sumAmounts receivers },
             receivers.map (fun r =>
               { denom := st.denom, amount := r.amount,
                 mint_to_address := r.address }))) := by
  constructor
  · intro validate st sender receivers i hsender hfirst hpre
    have hloop := Factory.mint_loop_first_invalid validate st.denom receivers 0 i 0
      hfirst (by omega)
    rw [Nat.zero_add] at hloop
    simp [Factory.invoke, Factory.execute, hsender, Factory.execute_mint, hloop]
  · intro validate st receivers hvalid hsum hcap
    have hloop := Factory.mint_loop_all_valid validate st.denom receivers hvalid 0 0
      (by omega)
    rw [Nat.zero_add] at hloop
    have hnoovf : ¬ (Factory.sumAmounts receivers + st.total_minted ≥ Factory.U128) := by
      omega
    have hnocap : ¬ (st.max_supply <
        Factory.sumAmounts receivers + st.total_minted ∧ st.max_supply ≠ 0) := by
      rcases hcap with h0 | hle
      · rintro ⟨_, hne⟩
        exact hne h0
      · rintro ⟨hlt, _⟩
        omega
    simp only [Factory.execute_mint, hloop, if_neg hnoovf, if_neg hnocap]
    rw [Nat.add_comm (Factory.sumAmounts receivers) st.total_minted]

/-- Witness for C7: an admin Mint of [0 to "x"] fails with MintInvalid 0
leaving the ledger unchanged, and an admin Mint of 20 to "x" and 30 to "y"
on a ledger with 10 minted and cap 100 yields total_minted 60 and the two
issuance instructions. -/
theorem Factory.mint_first_invalid_or_exact_batch_witness :
    Factory.invoke AssetList.acceptAll
      { admin := "adm", denom := "d", symbol := "S",
        max_supply := 100, total_minted := 10 } "adm"
      (.Mint [{ address := "x", amount := 0 }]) =
      ({ admin := "adm", denom := "d", symbol := "S",
         max_supply := 100, total_minted := 10 }, some (.MintInvalid 0)) ∧
    Factory.execute_mint AssetList.acceptAll
      { admin := "adm", denom := "d", symbol := "S",
        max_supply := 100, total_minted := 10 }
      [{ address := "x", amount := 20 }, { address := "y", amount := 30 }] =
      .ok ({ admin := "adm", denom := "d", symbol := "S",
             max_supply := 100, total_minted := 10 + Factory.sumAmounts
               [{ address := "x", amount := 20 }, { address := "y", amount := 30 }] },
           [{ denom := "d", amount := 20, mint_to_address := "x" },
            { denom := "d", amount := 30, mint_to_address := "y" }]) :=
  ⟨Factory.mint_first_invalid_or_exact_batch.1 AssetList.acceptAll
      { admin := "adm", denom := "d", symbol := "S",
        max_supply := 100, total_minted := 10 } "adm"
      [{ address := "x", amount := 0 }] 0 rfl (by decide) (by decide),
   Factory.mint_first_invalid_or_exact_batch.2 AssetList.acceptAll
      { admin := "adm", denom := "d", symbol := "S",
        max_supply := 100, total_minted := 10 }
      [{ address := "x", amount := 20 }, { address := "y", amount := 30 }]
      (by decide) (by decide) (by decide)⟩

/-- Claim C2: on every ledger state reachable through successful calls, a
nonzero max_supply bounds total_minted; instantiation rejects an initial
supply above a nonzero maximum with SupplyCap, Mint rejects a batch pushing
total_minted past a nonzero maximum with SupplyCap, and UpdateSupply rejects
a nonzero new maximum below total_minted with CurrentSupply. -/
theorem Factory.supply_cap_invariant :
    (∀ (validate : String → Bool) (st : Factory.LedgerState),
      Factory.Reachable validate st →
      st.max_supply ≠ 0 → st.total_minted ≤ st.max_supply) ∧
    (∀ (validate : String → Bool) (sender contract_address : String)
        (msg : Factory.InstantiateMsg),
      validate (msg.admin.getD sender) = true →
      msg.max_supply.getD 0 ≠ 0 →
      msg.initial_supply.getD 0 > msg.max_supply.getD 0 →
      Factory.instantiate validate sender contract_address msg = .error .SupplyCap) ∧
    (∀ (validate : String → Bool) (st : Factory.LedgerState)
        (receivers : List Factory.Receiver),
      (∀ r ∈ receivers, r.amount ≠ 0 ∧ validate r.address = true) →
      Factory.sumAmounts receivers + st.total_minted < Factory.U128 →
      st.max_supply ≠ 0 →
      st.max_supply < Factory.sumAmounts receivers + st.total_minted →
      Factory.execute_mint validate st receivers = .error .SupplyCap) ∧
    (∀ (st : Factory.LedgerState) (new_max : Nat),
      new_max ≠ 0 → new_max < st.total_minted →
      Factory.execute_update_supply st new_max = .error .CurrentSupply) := by
  refine ⟨?_, ?_, ?_, ?_⟩
  · intro validate st hreach
    induction hreach with
    | instantiated sender contract_address msg st h =>
      simp only [Factory.instantiate] at h
      split at h
      · simp at h
      · split at h
        · simp at h
        · rename_i hv hcap
          cases h
          intro hne
          simp only [ne_eq] at hne
          by_cases hgt : msg.initial_supply.getD 0 > msg.max_supply.getD 0
          · exact absurd ⟨hgt, hne⟩ hcap
          · have hle : msg.initial_supply.getD 0 ≤ msg.max_supply.getD 0 := by omega
            exact hle
    | stepped st sender msg st2 _ hstep ih =>
      simp only [Factory.execute] at hstep
      split at hstep
      · simp at hstep
      · match msg with
        | .Mint receivers =>
          simp only at hstep
          split at hstep
          · simp at hstep
          · rename_i total msgs heq
            simp only [Factory.execute_mint] at heq
            split at heq
            · simp at heq
            · rename_i pair hloop
              split at heq
              · simp at heq
              · split at heq
                · simp at heq
                · rename_i hnocap
                  cases heq
                  cases hstep
                  intro hne
                  rcases not_and_or.mp hnocap with hnl | hnz
                  · simpa using not_lt.mp hnl
                  · exact absurd hne (by simpa using hnz)
        | .Send receivers =>
          simp only at hstep
          split at hstep
          · simp at hstep
          · cases hstep
            exact ih
        | .Burn amount =>
          cases hstep
          exact ih
        | .UpdateSupply new_max =>
          simp only [Factory.execute_update_supply] at hstep
          split at hstep
          · simp at hstep
          · rename_i hnot
            cases hstep
            intro hne
            simp only [ne_eq] at hne
            rcases not_and_or.mp hnot with hnl | hnz
            · have hle : st.total_minted ≤ new_max := not_lt.mp hnl
              exact hle
            · exact absurd hne (by simpa using hnz)
        | .Revoke =>
          cases hstep
          exact ih
  · intro validate sender contract_address msg hv hmax hinit
    simp only [Factory.instantiate, hv]
    simp only [Bool.not_true, Bool.false_eq_true, if_false]
    rw [if_pos ⟨hinit, hmax⟩]
  · intro validate st receivers hvalid hsum hmax hlt
    have hloop := Factory.mint_loop_all_valid validate st.denom receivers hvalid 0 0
      (by omega)
    rw [Nat.zero_add] at hloop
    have hnoovf : ¬ (Factory.sumAmounts receivers + st.total_minted ≥ Factory.U128) := by
      omega
    simp only [Factory.execute_mint, hloop, if_neg hnoovf]
    split
    · rfl
    · rename_i hc
      exact absurd ⟨hlt, hmax⟩ hc
  · intro st new_max hne hlt
    simp only [Factory.execute_update_supply]
    split
    · rfl
    · rename_i hc
      exact absurd ⟨hlt, hne⟩ hc

/-- Witness for C2: a ledger instantiated with initial supply 10 and cap 100
satisfies the cap invariant; instantiating with initial 200 over cap 100,
minting 20 onto 90 under cap 100, and lowering the cap to 30 under 50
minted are all rejected as claimed. -/
theorem Factory.supply_cap_invariant_witness :
    ({ admin := "adm", denom := "factory/c/tfa/S", symbol := "S",
       max_supply := 100, total_minted := 10 } : Factory.LedgerState).total_minted ≤
      ({ admin := "adm", denom := "factory/c/tfa/S", symbol := "S",
         max_supply := 100, total_minted := 10 } : Factory.LedgerState).max_supply ∧
    Factory.instantiate AssetList.acceptAll "adm" "c"
      { symbol := "S", initial_supply := some 200, max_supply := some 100,
        admin := none } = .error .SupplyCap ∧
    Factory.execute_mint AssetList.acceptAll
      { admin := "adm", denom := "d", symbol := "S",
        max_supply := 100, total_minted := 90 }
      [{ address := "x", amount := 20 }] = .error .SupplyCap ∧
    Factory.execute_update_supply
      { admin := "adm", denom := "d", symbol := "S",
        max_supply := 100, total_minted := 50 } 30 = .error .CurrentSupply :=
  ⟨Factory.supply_cap_invariant.1 AssetList.acceptAll
      { admin := "adm", denom := "factory/c/tfa/S", symbol := "S",
        max_supply := 100, total_minted := 10 }
      (Factory.Reachable.instantiated "adm" "c"
        { symbol := "S", initial_supply := some 10, max_supply := some 100,
          admin := none }
        { admin := "adm", denom := "factory/c/tfa/S", symbol := "S",
          max_supply := 100, total_minted := 10 } (by decide)) (by decide),
   Factory.supply_cap_invariant.2.1 AssetList.acceptAll "adm" "c"
      { symbol := "S", initial_supply := some 200, max_supply := some 100,
        admin := none } (by decide) (by decide) (by decide),
   Factory.supply_cap_invariant.2.2.1 AssetList.acceptAll
      { admin := "adm", denom := "d", symbol := "S",
        max_supply := 100, total_minted := 90 }
      [{ address := "x", amount := 20 }] (by decide) (by decide) (by decide) (by decide),
   Factory.supply_cap_invariant.2.2.2
      { admin := "adm", denom := "d", symbol := "S",
        max_supply := 100, total_minted := 50 } 30 (by decide) (by decide)⟩

/-- Claim C6: for a non-admin Add through the admission gate (permissionless
adds, a fee schedule configured), the checks fire in order — empty funds
give MissingFee; two or more fund denominations give MultipleFees whatever
the amounts; a single denomination absent from the schedule gives
InvalidFee; an amount strictly below the per-item fee times the batch size
gives InsufficientFee; exact payment passes the gate into the item loop —
and an admin caller skips the permission and fee checks entirely. -/
theorem AssetList.fee_gate_order :
    (∀ (st : CatalogState) (sender : String) (funds : List Coin)
        (fee : Option (List Coin)) (permissioned : Bool)
        (required_fields : List Field) (listings : List (String × Metadata)),
      execute_add_listings st sender funds fee true permissioned required_fields listings =
        add_listings_loop sender true required_fields st listings) ∧
    (∀ (st : CatalogState) (sender : String) (fs : List Coin)
        (required_fields : List Field) (listings : List (String × Metadata)),
      execute_add_listings st sender [] (some fs) false false required_fields listings =
        .error .MissingFee) ∧
    (∀ (st : CatalogState) (sender : String) (c1 c2 : Coin) (cs : List Coin)
        (fs : List Coin) (required_fields : List Field)
        (listings : List (String × Metadata)),
      execute_add_listings st sender (c1 :: c2 :: cs) (some fs) false false
        required_fields listings = .error .MultipleFees) ∧
    (∀ (st : CatalogState) (sender : String) (c : Coin) (fs : List Coin)
        (required_fields : List Field) (listings : List (String × Metadata)),
      fs.find? (fun coin => coin.denom == c.denom) = none →
      execute_add_listings st sender [c] (some fs) false false required_fields listings =
        .error .InvalidFee) ∧
    (∀ (st : CatalogState) (sender : String) (c : Coin) (fs : List Coin)
        (fee_token : Coin) (required_fields : List Field)
        (listings : List (String × Metadata)),
      fs.find? (fun coin => coin.denom == c.denom) = some fee_token →
      fee_token.amount * listings.length < 2 ^ 128 →
      c.amount < fee_token.amount * listings.length →
      execute_add_listings st sender [c] (some fs) false false required_fields listings =
        .error .InsufficientFee) ∧
    (∀ (st : CatalogState) (sender : String) (c : Coin) (fs : List Coin)
        (fee_token : Coin) (required_fields : List Field)
        (listings : List (String × Metadata)),
      fs.find? (fun coin => coin.denom == c.denom) = some fee_token →
      fee_token.amount * listings.length < 2 ^ 128 →
      c.amount = fee_token.amount * listings.length →
      execute_add_listings st sender [c] (some fs) false false required_fields listings =
        add_listings_loop sender false required_fields st listings) := by
  refine ⟨?_, ?_, ?_, ?_, ?_, ?_⟩
  · intro st sender funds fee permissioned required_fields listings
    simp [execute_add_listings]
  · intro st sender fs required_fields listings
    simp [execute_add_listings]
  · intro st sender c1 c2 cs fs required_fields listings
    simp [execute_add_listings]
  · intro st sender c fs required_fields listings hfind
    simp [execute_add_listings, hfind]
  · intro st sender c fs fee_token required_fields listings hfind hnoovf hlt
    have h2 : fee_token.amount * listings.length <
        340282366920938463463374607431768211456 := by simpa using hnoovf
    simp [execute_add_listings, hfind, uint128Mul, h2, hlt]
  · intro st sender c fs fee_token required_fields listings hfind hnoovf heq
    have h2 : fee_token.amount * listings.length <
        340282366920938463463374607431768211456 := by simpa using hnoovf
    simp [execute_add_listings, hfind, uint128Mul, h2, heq]

/-- Witness for C6: with schedule [5 uosmo] and a two-item batch, paying in
uatom is InvalidFee, paying 9 uosmo is InsufficientFee, and paying exactly
10 uosmo passes the gate and adds both listings. -/
theorem AssetList.fee_gate_order_witness :
    execute_add_listings
      { config := configuredState.config, denom_map := [], symbol_map := [] }
      "dave" [{ denom := "uatom", amount := 100 }]
      (some [{ denom := "uosmo", amount := 5 }]) false false []
      [("ua", metaAA), ("ub", metaBB)] = .error .InvalidFee ∧
    execute_add_listings
      { config := configuredState.config, denom_map := [], symbol_map := [] }
      "dave" [{ denom := "uosmo", amount := 9 }]
      (some [{ denom := "uosmo", amount := 5 }]) false false []
      [("ua", metaAA), ("ub", metaBB)] = .error .InsufficientFee ∧
    execute_add_listings
      { config := configuredState.config, denom_map := [], symbol_map := [] }
      "dave" [{ denom := "uosmo", amount := 10 }]
      (some [{ denom := "uosmo", amount := 5 }]) false false []
      [("ua", metaAA), ("ub", metaBB)] =
      add_listings_loop "dave" false []
        { config := configuredState.config, denom_map := [], symbol_map := [] }
        [("ua", metaAA), ("ub", metaBB)] :=
  ⟨AssetList.fee_gate_order.2.2.2.1
      { config := AssetList.configuredState.config, denom_map := [], symbol_map := [] }
      "dave" { denom := "uatom", amount := 100 }
      [{ denom := "uosmo", amount := 5 }] [] [("ua", AssetList.metaAA), ("ub", AssetList.metaBB)]
      (by decide),
   AssetList.fee_gate_order.2.2.2.2.1
      { config := AssetList.configuredState.config, denom_map := [], symbol_map := [] }
      "dave" { denom := "uosmo", amount := 9 }
      [{ denom := "uosmo", amount := 5 }] { denom := "uosmo", amount := 5 } []
      [("ua", AssetList.metaAA), ("ub", AssetList.metaBB)]
      (by decide) (by decide) (by decide),
   AssetList.fee_gate_order.2.2.2.2.2
      { config := AssetList.configuredState.config, denom_map := [], symbol_map := [] }
      "dave" { denom := "uosmo", amount := 10 }
      [{ denom := "uosmo", amount := 5 }] { denom := "uosmo", amount := 5 } []
      [("ua", AssetList.metaAA), ("ub", AssetList.metaBB)]
      (by decide) (by decide) (by decide)⟩

theorem AssetList.filter_gt_key_eq_drop {α : Type} (m : AssetList.StrMap α)
    (hs : AssetList.sortedKeys m) :
    ∀ (i : Nat) (hi : i < m.length),
      m.filter (fun kv => AssetList.strLt (m.get ⟨i, hi⟩).1 kv.1) = m.drop (i + 1) := by
  induction m with
  | nil => intro i hi; cases hi
  | cons kv t ih =>
    intro i hi
    have hpc := List.pairwise_cons.mp hs
    have hhead : ∀ y ∈ t, AssetList.strLt kv.1 y.1 = true := hpc.1
    have htail : AssetList.sortedKeys t := hpc.2
    match i with
    | 0 =>
      have hget : ((kv :: t).get ⟨0, hi⟩) = kv := rfl
      rw [hget, List.filter_cons_of_neg (by rw [AssetList.strLt_irrefl]; simp)]
      have : t.filter (fun x => AssetList.strLt kv.1 x.1) = t :=
        List.filter_eq_self.mpr (fun a ha => hhead a ha)
      rw [this]
      rfl
    | i + 1 =>
      have hi2 : i < t.length := Nat.lt_of_succ_lt_succ hi
      have hget : ((kv :: t).get ⟨i + 1, hi⟩) = t.get ⟨i, hi2⟩ := rfl
      rw [hget]
      have hkv : AssetList.strLt (t.get ⟨i, hi2⟩).1 kv.1 = false :=
        AssetList.strLt_asymm (hhead _ (List.get_mem t i hi2))
      rw [List.filter_cons_of_neg (by rw [hkv]; simp)]
      rw [ih htail i hi2]
      rfl

/-- Claim C8: the All query is total (a pure list, empty on an empty
catalog); the limit defaults to MAX_PAGE_LIMIT and is clamped to it; results
are ascending in byte order and start strictly after the cursor; and on a
sorted store, All{limit 1} from no cursor returns the first record, from the
cursor at position i returns exactly the record at position i+1, and from
the last record's denom returns nothing — so chaining the cursor enumerates
every record exactly once, with no duplicates and no gaps. -/
theorem AssetList.query_all_pagination (st : AssetList.CatalogState)
    (hs : AssetList.sortedKeys st.denom_map) :
    (st.denom_map = [] → ∀ sa l, AssetList.query_all_listings st sa l = []) ∧
    (∀ sa, AssetList.query_all_listings st sa none =
      AssetList.query_all_listings st sa (some AssetList.MAX_PAGE_LIMIT)) ∧
    (∀ sa l, AssetList.MAX_PAGE_LIMIT ≤ l →
      AssetList.query_all_listings st sa (some l) =
        AssetList.query_all_listings st sa (some AssetList.MAX_PAGE_LIMIT)) ∧
    (∀ sa l, (AssetList.query_all_listings st sa l).Pairwise
      (fun a b => AssetList.strLt a.1 b.1 = true)) ∧
    (∀ k l x, x ∈ AssetList.query_all_listings st (some k) l →
      AssetList.strLt k x.1 = true) ∧
    (∀ h0 : 0 < st.denom_map.length,
      AssetList.query_all_listings st none (some 1) =
        [((st.denom_map.get ⟨0, h0⟩).1, (st.denom_map.get ⟨0, h0⟩).2.metadata)]) ∧
    (∀ i (hi : i + 1 < st.denom_map.length),
      AssetList.query_all_listings st
          (some (st.denom_map.get ⟨i, Nat.lt_of_succ_lt hi⟩).1) (some 1) =
        [((st.denom_map.get ⟨i + 1, hi⟩).1,
          (st.denom_map.get ⟨i + 1, hi⟩).2.metadata)]) ∧
    (∀ hlast : st.denom_map.length - 1 < st.denom_map.length,
      AssetList.query_all_listings st
        (some (st.denom_map.get ⟨st.denom_map.length - 1, hlast⟩).1) (some 1) = []) := by
  refine ⟨?_, ?_, ?_, ?_, ?_, ?_, ?_, ?_⟩
  · intro hemp sa l
    cases sa <;> simp [AssetList.query_all_listings, hemp]
  · intro sa
    rfl
  · intro sa l hle
    have hmin : min l AssetList.MAX_PAGE_LIMIT = AssetList.MAX_PAGE_LIMIT :=
      Nat.min_eq_right hle
    simp [AssetList.query_all_listings, hmin]
  · intro sa l
    cases sa with
    | none =>
      simp only [AssetList.query_all_listings]
      rw [List.pairwise_map]
      exact List.Pairwise.sublist (List.take_sublist _ _) hs
    | some k =>
      simp only [AssetList.query_all_listings]
      rw [List.pairwise_map]
      exact List.Pairwise.sublist (List.take_sublist _ _)
        (List.Pairwise.sublist (List.filter_sublist _) hs)
  · intro k l x hx
    simp only [AssetList.query_all_listings, List.mem_map] at hx
    obtain ⟨y, hy, hxy⟩ := hx
    have hyf := (List.take_sublist _ _).mem hy
    have hp := (List.mem_filter.mp hyf).2
    rw [← hxy]
    exact hp
  · intro h0
    have hq : AssetList.query_all_listings st none (some 1) =
        (st.denom_map.take 1).map (fun kv => (kv.1, kv.2.metadata)) := rfl
    rw [hq]
    revert h0
    generalize st.denom_map = m
    intro h0
    cases m with
    | nil => cases h0
    | cons kv t => rfl
  · intro i hi
    have hi0 : i < st.denom_map.length := Nat.lt_of_succ_lt hi
    simp only [AssetList.query_all_listings]
    rw [AssetList.filter_gt_key_eq_drop st.denom_map hs i hi0,
        List.drop_eq_getElem_cons hi]
    rfl
  · intro hlast
    simp only [AssetList.query_all_listings]
    rw [AssetList.filter_gt_key_eq_drop st.denom_map hs _ hlast]
    have : st.denom_map.length - 1 + 1 = st.denom_map.length := by omega
    rw [this, List.drop_length]
    rfl

/-- Witness for C8: on the two-record catalog, All{limit 1} returns "uion",
All{start_after "uion", limit 1} returns "uosmo", and All{start_after
"uosmo", limit 1} returns nothing — the cursor chain enumerates both records
exactly once. -/
theorem AssetList.query_all_pagination_witness :
    AssetList.query_all_listings AssetList.pagedState none (some 1) =
      [("uion", AssetList.metaAA)] ∧
    AssetList.query_all_listings AssetList.pagedState (some "uion") (some 1) =
      [("uosmo", AssetList.metaBB)] ∧
    AssetList.query_all_listings AssetList.pagedState (some "uosmo") (some 1) = [] := by
  refine ⟨?_, ?_, ?_⟩
  · exact (AssetList.query_all_pagination AssetList.pagedState
      (by decide)).2.2.2.2.2.1 (by decide)
  · exact (AssetList.query_all_pagination AssetList.pagedState
      (by decide)).2.2.2.2.2.2.1 0 (by decide)
  · exact (AssetList.query_all_pagination AssetList.pagedState
      (by decide)).2.2.2.2.2.2.2 (by decide)
